import Mathlib

set_option linter.unusedSectionVars false

/-!
Shallow embedding of the `RandomSwap` preprocessing layer
(`keras_hub/src/layers/preprocessing/random_swap.py`) and proofs of its
specified properties.

Modelling conventions:
* a token sequence is a `List α`, a (ragged) batch a `List (List α)`;
* the TensorFlow stateless random primitives are an abstract `Rng` structure:
  `makeSeeds` models `Generator.make_seeds` (state in, seed and new state out),
  `binomial` models `tf.random.stateless_binomial` (one draw per batch row,
  depending on the seed, the probability, the row index and the row count),
  `uniform2` models the `tf.random.stateless_uniform(shape=[2], minval=0,
  maxval=n)` call, with the API guarantee that both draws lie below `maxval`
  recorded as the field `uniform2_lt`;
* the stateful generator created by `tf.random.Generator.from_seed(seed)` is
  threaded explicitly; its initial state is the seed itself;
* Python `ValueError`s raised by `__init__` become `Except.error` values.
-/

namespace KerasHub

/-- Modelled from the spec: the output-dtype check of `RandomSwap.__init__`
uses `is_int_dtype` and `is_string_dtype` from `tensor_utils`, which is not
among the sources; the spec and the constructor docstring say the output
dtype must be an integer type or a string type. -/
inductive DType
  | int8 | int16 | int32 | int64
  | uint8 | uint16 | uint32 | uint64
  | float16 | float32 | float64
  | boolean
  | string
deriving DecidableEq

/-- Modelled from the spec: `is_int_dtype` holds exactly on integer dtypes. -/
def is_int_dtype : DType → Bool
  | .int8 | .int16 | .int32 | .int64 => true
  | .uint8 | .uint16 | .uint32 | .uint64 => true
  | _ => false

/-- Modelled from the spec: `is_string_dtype` holds exactly on the string
dtype. -/
def is_string_dtype : DType → Bool
  | .string => true
  | _ => false

/-- Abstract model of the TensorFlow random primitives used by `RandomSwap`.
`uniform2_lt` is the `stateless_uniform` API contract: draws with
`minval=0, maxval=m` lie in `[0, m)` whenever `m` is positive. -/
structure Rng where
  makeSeeds : Nat → Nat × Nat
  binomial : Nat → ℚ → Nat → Nat → Nat
  uniform2 : Nat → Nat → Nat × Nat
  uniform2_lt : ∀ s m, 0 < m → (uniform2 s m).1 < m ∧ (uniform2 s m).2 < m

namespace RandomSwap

/-- The constructor arguments of `RandomSwap.__init__` (the layer `name` and
extra keyword arguments play no role in the modelled behaviour). -/
structure Args (α : Type) where
  rate : ℚ
  max_swaps : Option Int := none
  skip_list : Option (List α) := none
  skip_fn : Option (α → Bool) := none
  skip_py_fn : Option (α → Bool) := none
  seed : Option Nat := none
  dtype : DType := .int32

/-- The state of a successfully constructed `RandomSwap` layer. -/
structure Config (α : Type) where
  rate : ℚ
  max_swaps : Option Int
  skip_list : Option (List α)
  skip_fn : Option (α → Bool)
  skip_py_fn : Option (α → Bool)
  seed : Nat

/-- The `ValueError`s that `RandomSwap.__init__` can raise, in source order:
the dtype check, the `max_swaps` sign check, the skip-argument count check. -/
inductive InitError
  | invalidDtype
  | negativeMaxSwaps
  | skipConflict
deriving DecidableEq

/-- The value of `[self.skip_list, self.skip_fn, self.skip_py_fn].count(None)`
in `RandomSwap.__init__`. -/
def noneCount {α : Type} (a : Args α) : Nat :=
  (if a.skip_list.isNone then 1 else 0)
    + (if a.skip_fn.isNone then 1 else 0)
    + (if a.skip_py_fn.isNone then 1 else 0)

/-- Embeds `RandomSwap.__init__`.  `randint` stands for the draw
`random.randint(1, int(1e9))` used only when no seed is supplied.  Checks
appear in source order: the dtype check (before any other initialization),
then the `max_swaps` sign check, then the mutual-exclusion check on the three
skip arguments. -/
def init {α : Type} (randint : Nat) (a : Args α) : Except InitError (Config α) :=
  if ¬ (is_int_dtype a.dtype = true ∨ is_string_dtype a.dtype = true) then
    .error .invalidDtype
  else if (match a.max_swaps with | some m => decide (m < 0) | none => false) = true then
    .error .negativeMaxSwaps
  else if noneCount a < 2 then
    .error .skipConflict
  else
    .ok { rate := a.rate
          max_swaps := a.max_swaps
          skip_list := a.skip_list
          skip_fn := a.skip_fn
          skip_py_fn := a.skip_py_fn
          seed := a.seed.getD randint }

variable {α : Type} [DecidableEq α] [Inhabited α]

/-- The per-token skip mask of `RandomSwap.call` (`True` = excluded), or
`none` when no exclusion mechanism is active.  Mirrors the
`if self.skip_list: ... elif self.skip_fn: ... elif self.skip_py_fn: ...`
chain, including Python truthiness: an empty `skip_list` is falsy, so it
activates no mask.  The `StaticHashTable` lookup is membership in
`skip_list`; `skip_fn` and `skip_py_fn` are elementwise predicates. -/
def skipMask (cfg : Config α) (row : List α) : Option (List Bool) :=
  match cfg.skip_list with
  | some (t :: ts) => some (row.map fun x => decide (x ∈ t :: ts))
  | _ =>
    match cfg.skip_fn with
    | some f => some (row.map f)
    | none =>
      match cfg.skip_py_fn with
      | some f => some (row.map f)
      | none => none

/-- Embeds `tf.ragged.boolean_mask` on one row: keep the entries whose mask
value is `True`. -/
def booleanMask : List Nat → List Bool → List Nat
  | p :: ps, m :: ms => if m then p :: booleanMask ps ms else booleanMask ps ms
  | _, _ => []

/-- The eligible positions of one row: `tf.ragged.range(row_lengths)`,
filtered by the negated skip mask when a mask is active. -/
def eligiblePositions (cfg : Config α) (row : List α) : List Nat :=
  let positions := List.range row.length
  match skipMask cfg row with
  | none => positions
  | some mask => booleanMask positions (mask.map (fun b => !b))

/-- The per-row swap budget: the `stateless_binomial` draw over the eligible
count, capped by `max_swaps` when present, then by the eligible count, as in
the `num_to_select` computation of `RandomSwap.call`. -/
def numToSelect (rng : Rng) (cfg : Config α) (seedB i eligibleCount : Nat) : Int :=
  let draw : Int := (rng.binomial seedB cfg.rate i eligibleCount : Nat)
  let capped : Int :=
    match cfg.max_swaps with
    | none => draw
    | some m => min draw m
  min capped (eligibleCount : Int)

/-- One update of the `for` loop body of `_swap`: draw a fresh seed from the
generator, draw two indices uniformly below `tf.size(positions)`, look the
two positions up, and exchange the values at those positions with
`tensor_scatter_nd_update` (both updates read the pre-update row). -/
def swapValues (row : List α) (p1 p2 : Nat) : List α :=
  (row.set p1 (row.getD p2 default)).set p2 (row.getD p1 default)

/-- Embeds the `for _ in range(num_to_select)` loop of `_swap` on one row,
threading the generator state `g` and counting the iterations performed.
Returns the updated row, the generator state, and the iteration count. -/
def swapLoop (rng : Rng) (ps : List Nat) : Nat → List α → Nat → List α × Nat × Nat
  | 0, row, g => (row, g, 0)
  | n + 1, row, g =>
    let sg := rng.makeSeeds g
    let ij := rng.uniform2 sg.1 ps.length
    let row₁ := swapValues row (ps.getD ij.1 0) (ps.getD ij.2 0)
    let r := swapLoop rng ps n row₁ sg.2
    (r.1, r.2.1, r.2.2 + 1)

/-- Embeds the `tf.map_fn(_swap, ...)` traversal: rows are processed in
order, each consuming `num_to_select` generator draws; `i` is the row index
within the batch (it selects the component of the row in the vectorised binomial
draw) and `g` the generator state.  Each output pair is the transformed row
together with the number of swap iterations performed on it. -/
def processRows (rng : Rng) (cfg : Config α) (seedB : Nat) :
    Nat → Nat → List (List α) → List (List α × Nat)
  | _, _, [] => []
  | g, i, row :: rest =>
    let ps := eligiblePositions cfg row
    let n := numToSelect rng cfg seedB i ps.length
    let r := swapLoop rng ps n.toNat row g
    (r.1, r.2.2) :: processRows rng cfg seedB r.2.1 (i + 1) rest

/-- The batched core of `RandomSwap.call` (skip masks, eligible positions,
binomial selection, swap loop), instrumented with per-row iteration counts.
One `make_seeds` call feeds the binomial draw; the generator state then
threads through the rows. -/
def callBatchFull (rng : Rng) (cfg : Config α) (xss : List (List α)) :
    List (List α × Nat) :=
  let sg := rng.makeSeeds cfg.seed
  processRows rng cfg sg.1 sg.2 0 xss

/-- The batched core of `RandomSwap.call`: the transformed rows. -/
def callBatch (rng : Rng) (cfg : Config α) (xss : List (List α)) : List (List α) :=
  (callBatchFull rng cfg xss).map (fun r => r.1)

/-- The number of swap iterations performed on each row of the batch. -/
def swapIterCounts (rng : Rng) (cfg : Config α) (xss : List (List α)) : List Nat :=
  (callBatchFull rng cfg xss).map (fun r => r.2)

/-- An input to `RandomSwap.call`: a single rank-one sequence, or a batch. -/
inductive Input (α : Type)
  | single : List α → Input α
  | batch : List (List α) → Input α
deriving DecidableEq

/-- Modelled from the spec: `convert_to_ragged_batch` lives in
`tensor_utils`, which is not among the sources; per the spec, an unbatched
input is wrapped into a batch of size one and flagged so the result can be
un-batched symmetrically. -/
def convert_to_ragged_batch : Input α → List (List α) × Bool
  | .single xs => ([xs], true)
  | .batch xss => (xss, false)

/-- Embeds `RandomSwap.call`: batch the input, run the batched core, and
squeeze away the batch dimension again when the input was unbatched. -/
def call (rng : Rng) (cfg : Config α) (x : Input α) : Input α :=
  let cb := convert_to_ragged_batch x
  let swapped := callBatch rng cfg cb.1
  if cb.2 then .single (swapped.headD []) else .batch swapped

/-- One full run of the layer: construct it from `args` (with `randint` the
ambient draw used only when no seed is given) and, on success, apply it. -/
def run (rng : Rng) (randint : Nat) (a : Args α) (x : Input α) : Option (Input α) :=
  match init randint a with
  | .error _ => none
  | .ok cfg => some (call rng cfg x)

/-- The sequences carried by an input, viewed as a batch. -/
def rowsOf : Input α → List (List α)
  | .single xs => [xs]
  | .batch xss => xss

/-- A concrete instance of the random-primitive model, used to evaluate the
development on concrete inputs: the binomial draw returns its count and the
uniform draw always returns index `0`. -/
def rngW : Rng where
  makeSeeds := fun g => (g, g + 1)
  binomial := fun _ _ _ c => c
  uniform2 := fun _ _ => (0, 0)
  uniform2_lt := fun _ _ hm => ⟨hm, hm⟩

/-! Helper lemmas about lists, swaps return and masks. -/

theorem list_set_getD_self {α : Type} (l : List α) (p : Nat) (d : α) :
    l.set p (l.getD p d) = l := by
  induction l generalizing p with
  | nil => rfl
  | cons a t ih =>
    cases p with
    | zero => rw [List.getD_cons_zero, List.set_cons_zero]
    | succ n =>
      rw [List.getD_cons_succ, List.set_cons_succ, ih n]

theorem swapValues_self {α : Type} [Inhabited α] (l : List α) (p : Nat) :
    swapValues l p p = l := by
  unfold swapValues
  rw [List.set_set, list_set_getD_self]

theorem swapValues_length {α : Type} [Inhabited α] (l : List α) (p1 p2 : Nat) :
    (swapValues l p1 p2).length = l.length := by
  simp [swapValues]

/-- Moving the value at index `j` to the front while writing `a` at index `j`
permutes `a :: t`. -/
theorem getD_cons_set_perm {α : Type} (t : List α) (j : Nat) (a d : α)
    (hj : j < t.length) : (t.getD j d :: t.set j a).Perm (a :: t) := by
  induction t generalizing j with
  | nil => simp at hj
  | cons b t' ih =>
    cases j with
    | zero =>
      simp only [List.getD_cons_zero, List.set_cons_zero]
      exact List.Perm.swap a b t'
    | succ k =>
      have hk : k < t'.length := by simpa using hj
      simp only [List.getD_cons_succ, List.set_cons_succ]
      exact ((List.Perm.swap b (t'.getD k d) (t'.set k a)).trans
        (List.Perm.cons b (ih k hk))).trans (List.Perm.swap a b t')

theorem swapValues_perm_of_lt {α : Type} [Inhabited α] (l : List α) (p1 p2 : Nat)
    (h12 : p1 < p2) (h2 : p2 < l.length) : (swapValues l p1 p2).Perm l := by
  induction l generalizing p1 p2 with
  | nil => simp at h2
  | cons a t ih =>
    cases p1 with
    | zero =>
      obtain ⟨j, rfl⟩ : ∃ j, p2 = j + 1 := ⟨p2 - 1, by omega⟩
      have hj : j < t.length := by simpa using h2
      simp only [swapValues, List.getD_cons_succ, List.getD_cons_zero,
        List.set_cons_zero, List.set_cons_succ]
      exact getD_cons_set_perm t j a default hj
    | succ i =>
      obtain ⟨j, rfl⟩ : ∃ j, p2 = j + 1 := ⟨p2 - 1, by omega⟩
      have hij : i < j := by omega
      have hj : j < t.length := by simpa using h2
      simp only [swapValues, List.getD_cons_succ, List.set_cons_succ]
      exact List.Perm.cons a (ih i j hij hj)

theorem swapValues_perm {α : Type} [Inhabited α] (l : List α) (p1 p2 : Nat)
    (h : (p1 < l.length ∧ p2 < l.length) ∨ p1 = p2) :
    (swapValues l p1 p2).Perm l := by
  rcases h with ⟨h1, h2⟩ | rfl
  · rcases Nat.lt_trichotomy p1 p2 with hlt | rfl | hgt
    · exact swapValues_perm_of_lt l p1 p2 hlt h2
    · rw [swapValues_self]
    · have := swapValues_perm_of_lt l p2 p1 hgt h1
      unfold swapValues at this ⊢
      rw [List.set_comm _ _ _ (Nat.ne_of_lt hgt).symm]
      exact this
  · rw [swapValues_self]

theorem swapValues_getD_ne {α : Type} [Inhabited α] (l : List α) (p1 p2 k : Nat)
    (h1 : k ≠ p1) (h2 : k ≠ p2) (d : α) :
    (swapValues l p1 p2).getD k d = l.getD k d := by
  simp only [swapValues, List.getD_eq_getElem?_getD,
    List.getElem?_set_ne (Ne.symm h2), List.getElem?_set_ne (Ne.symm h1)]

theorem getD_mem_of_lt {α : Type} (l : List α) (i : Nat) (d : α)
    (h : i < l.length) : l.getD i d ∈ l := by
  rw [List.getD_eq_getElem l d h]
  exact List.getElem_mem h

theorem mem_booleanMask {x : Nat} :
    ∀ {ps : List Nat} {ms : List Bool}, x ∈ booleanMask ps ms →
      ∃ i, i < ps.length ∧ i < ms.length ∧ ps.getD i 0 = x ∧ ms.getD i false = true := by
  intro ps
  induction ps with
  | nil => intro ms h; cases ms <;> simp [booleanMask] at h
  | cons p ps' ih =>
    intro ms h
    cases ms with
    | nil => simp [booleanMask] at h
    | cons m ms' =>
      cases m with
      | true =>
        simp [booleanMask] at h
        rcases h with rfl | h
        · exact ⟨0, by simp, by simp, by simp [List.getD_cons_zero], by simp [List.getD_cons_zero]⟩
        · obtain ⟨i, h1, h2, h3, h4⟩ := ih h
          exact ⟨i + 1, by simpa using h1, by simpa using h2,
            by simpa [List.getD_cons_succ] using h3, by simpa [List.getD_cons_succ] using h4⟩
      | false =>
        simp [booleanMask] at h
        obtain ⟨i, h1, h2, h3, h4⟩ := ih h
        exact ⟨i + 1, by simpa using h1, by simpa using h2,
          by simpa [List.getD_cons_succ] using h3, by simpa [List.getD_cons_succ] using h4⟩

variable {α : Type} [DecidableEq α] [Inhabited α]

theorem eligible_lt_length (cfg : Config α) (row : List α) (p : Nat)
    (hp : p ∈ eligiblePositions cfg row) : p < row.length := by
  unfold eligiblePositions at hp
  cases hsm : skipMask cfg row with
  | none => rw [hsm] at hp; exact List.mem_range.mp hp
  | some mask =>
    rw [hsm] at hp
    obtain ⟨i, h1, _, h3, _⟩ := mem_booleanMask hp
    rw [List.length_range] at h1
    rw [List.getD_eq_getElem _ _ (by simpa using h1), List.getElem_range] at h3
    omega

theorem eligible_not_skipped (cfg : Config α) (row : List α) (mask : List Bool)
    (p : Nat) (hm : skipMask cfg row = some mask)
    (hp : p ∈ eligiblePositions cfg row) : mask.getD p false = false := by
  unfold eligiblePositions at hp
  rw [hm] at hp
  obtain ⟨i, h1, h2, h3, h4⟩ := mem_booleanMask hp
  rw [List.length_range] at h1
  rw [List.getD_eq_getElem _ _ (by simpa using h1), List.getElem_range] at h3
  subst h3
  rw [List.length_map] at h2
  rw [List.getD_eq_getElem _ _ (by simpa using h2), List.getElem_map] at h4
  rw [List.getD_eq_getElem _ _ h2]
  simpa using h4

/-- The two positions drawn in one iteration of the `_swap` loop are members
of the eligible-position list, or the list is empty and both are `0`. -/
theorem swap_targets (rng : Rng) (ps : List Nat) (seed : Nat) :
    (ps.getD (rng.uniform2 seed ps.length).1 0 ∈ ps ∧
      ps.getD (rng.uniform2 seed ps.length).2 0 ∈ ps) ∨
    (ps = [] ∧ ps.getD (rng.uniform2 seed ps.length).1 0 = 0 ∧
      ps.getD (rng.uniform2 seed ps.length).2 0 = 0) := by
  cases hps : ps with
  | nil => right; exact ⟨rfl, rfl, rfl⟩
  | cons q qs =>
    left
    have hlen : 0 < (q :: qs).length := by simp
    obtain ⟨hu1, hu2⟩ := rng.uniform2_lt seed (q :: qs).length hlen
    exact ⟨getD_mem_of_lt _ _ _ hu1, getD_mem_of_lt _ _ _ hu2⟩

theorem swapLoop_count (rng : Rng) (ps : List Nat) (n : Nat) (row : List α) (g : Nat) :
    (swapLoop rng ps n row g).2.2 = n := by
  induction n generalizing row g with
  | zero => rfl
  | succ n ih => simp only [swapLoop]; rw [ih]

theorem swapLoop_length (rng : Rng) (ps : List Nat) (n : Nat) (row : List α) (g : Nat) :
    (swapLoop rng ps n row g).1.length = row.length := by
  induction n generalizing row g with
  | zero => rfl
  | succ n ih => simp only [swapLoop]; rw [ih, swapValues_length]

theorem swapLoop_perm (rng : Rng) (ps : List Nat) (n : Nat) (row : List α) (g : Nat)
    (hp : ∀ p ∈ ps, p < row.length) : (swapLoop rng ps n row g).1.Perm row := by
  induction n generalizing row g with
  | zero => exact List.Perm.refl row
  | succ n ih =>
    simp only [swapLoop]
    have hstep : (swapValues row (ps.getD (rng.uniform2 (rng.makeSeeds g).1 ps.length).1 0)
        (ps.getD (rng.uniform2 (rng.makeSeeds g).1 ps.length).2 0)).Perm row := by
      rcases swap_targets rng ps (rng.makeSeeds g).1 with ⟨hm1, hm2⟩ | ⟨_, he1, he2⟩
      · exact swapValues_perm _ _ _ (Or.inl ⟨hp _ hm1, hp _ hm2⟩)
      · rw [he1, he2]; exact swapValues_perm _ _ _ (Or.inr rfl)
    have hp' : ∀ p ∈ ps, p < (swapValues row
        (ps.getD (rng.uniform2 (rng.makeSeeds g).1 ps.length).1 0)
        (ps.getD (rng.uniform2 (rng.makeSeeds g).1 ps.length).2 0)).length := by
      intro p hmem; rw [swapValues_length]; exact hp p hmem
    exact (ih _ _ hp').trans hstep

theorem swapLoop_getD_not_mem (rng : Rng) (ps : List Nat) (n : Nat) (row : List α)
    (g : Nat) (k : Nat) (hk : k ∉ ps) (d : α) :
    (swapLoop rng ps n row g).1.getD k d = row.getD k d := by
  induction n generalizing row g with
  | zero => rfl
  | succ n ih =>
    simp only [swapLoop]
    rw [ih]
    rcases swap_targets rng ps (rng.makeSeeds g).1 with ⟨hm1, hm2⟩ | ⟨_, he1, he2⟩
    · have hne1 : k ≠ ps.getD (rng.uniform2 (rng.makeSeeds g).1 ps.length).1 0 := by
        intro h; rw [h] at hk; exact hk hm1
      have hne2 : k ≠ ps.getD (rng.uniform2 (rng.makeSeeds g).1 ps.length).2 0 := by
        intro h; rw [h] at hk; exact hk hm2
      exact swapValues_getD_ne _ _ _ _ hne1 hne2 d
    · rw [he1, he2, swapValues_self]

theorem processRows_length (rng : Rng) (cfg : Config α) (seedB : Nat) :
    ∀ (rows : List (List α)) (g i0 : Nat),
      (processRows rng cfg seedB g i0 rows).length = rows.length := by
  intro rows
  induction rows with
  | nil => intro g i0; rfl
  | cons r rest ih =>
    intro g i0
    simp only [processRows, List.length_cons]
    rw [ih]

theorem processRows_perm (rng : Rng) (cfg : Config α) (seedB : Nat) :
    ∀ (rows : List (List α)) (g i0 : Nat),
      List.Forall₂ (fun out inp => out.1.Perm inp)
        (processRows rng cfg seedB g i0 rows) rows := by
  intro rows
  induction rows with
  | nil => intro g i0; exact List.Forall₂.nil
  | cons r rest ih =>
    intro g i0
    simp only [processRows]
    exact List.Forall₂.cons
      (swapLoop_perm rng _ _ r g (fun p hp => eligible_lt_length cfg r p hp))
      (ih _ _)

theorem processRows_count (rng : Rng) (cfg : Config α) (seedB : Nat) :
    ∀ (rows : List (List α)) (g i0 i : Nat), i < rows.length →
      ((processRows rng cfg seedB g i0 rows).getD i ([], 0)).2 =
        (numToSelect rng cfg seedB (i0 + i)
          (eligiblePositions cfg (rows.getD i [])).length).toNat := by
  intro rows
  induction rows with
  | nil => intro g i0 i hi; simp at hi
  | cons r rest ih =>
    intro g i0 i hi
    cases i with
    | zero =>
      simp only [processRows, List.getD_cons_zero, Nat.add_zero]
      exact swapLoop_count rng _ _ r g
    | succ i' =>
      have hi' : i' < rest.length := by simpa using hi
      simp only [processRows, List.getD_cons_succ]
      rw [ih _ _ i' hi']
      have : i0 + 1 + i' = i0 + (i' + 1) := by omega
      rw [this]

theorem processRows_row_getD (rng : Rng) (cfg : Config α) (seedB : Nat) :
    ∀ (rows : List (List α)) (g i0 i k : Nat) (mask : List Bool),
      i < rows.length →
      skipMask cfg (rows.getD i []) = some mask →
      mask.getD k false = true →
      ((processRows rng cfg seedB g i0 rows).getD i ([], 0)).1.getD k default =
        (rows.getD i []).getD k default := by
  intro rows
  induction rows with
  | nil => intro g i0 i k mask hi; simp at hi
  | cons r rest ih =>
    intro g i0 i k mask hi hm hk
    cases i with
    | zero =>
      simp only [List.getD_cons_zero] at hm ⊢
      have hknot : k ∉ eligiblePositions cfg r := by
        intro hmem
        have := eligible_not_skipped cfg r mask k hm hmem
        rw [this] at hk
        exact Bool.false_ne_true hk
      simp only [processRows, List.getD_cons_zero]
      exact swapLoop_getD_not_mem rng _ _ r g k hknot default
    | succ i' =>
      have hi' : i' < rest.length := by simpa using hi
      simp only [List.getD_cons_succ] at hm ⊢
      simp only [processRows, List.getD_cons_succ]
      exact ih _ _ i' k mask hi' hm hk

theorem callBatch_length (rng : Rng) (cfg : Config α) (xss : List (List α)) :
    (callBatch rng cfg xss).length = xss.length := by
  unfold callBatch callBatchFull
  rw [List.length_map, processRows_length]

theorem callBatch_forall₂_perm (rng : Rng) (cfg : Config α) (xss : List (List α)) :
    List.Forall₂ (fun out inp => out.Perm inp) (callBatch rng cfg xss) xss := by
  unfold callBatch callBatchFull
  exact List.forall₂_map_left_iff.mpr (processRows_perm rng cfg _ xss _ 0)

theorem rowsOf_call (rng : Rng) (cfg : Config α) (x : Input α) :
    rowsOf (call rng cfg x) = callBatch rng cfg (rowsOf x) := by
  cases x with
  | batch xss => rfl
  | single xs =>
    have hlen : (callBatch rng cfg [xs]).length = 1 := by
      rw [callBatch_length]; rfl
    cases hcb : callBatch rng cfg [xs] with
    | nil => rw [hcb] at hlen; simp at hlen
    | cons y ys =>
      rw [hcb] at hlen
      have hys : ys = [] := by simpa using hlen
      subst hys
      simp [call, convert_to_ragged_batch, rowsOf, hcb]

theorem numToSelect_toNat (rng : Rng) (cfg : Config α) (s i e : Nat) :
    (numToSelect rng cfg s i e).toNat =
      min (match cfg.max_swaps with
           | none => rng.binomial s cfg.rate i e
           | some m => min (rng.binomial s cfg.rate i e) m.toNat) e := by
  unfold numToSelect
  cases cfg.max_swaps with
  | none => simp only []; omega
  | some m => simp only []; omega

/-- C2: for every input to `RandomSwap.call` and every sequence in it, the
multiset of token values of the corresponding output sequence equals the
multiset of the input sequence (each swap only exchanges two positions, so
no token is created, dropped, or duplicated); `List.Perm` is multiset
equality. -/
theorem call_multiset_invariant (rng : Rng) (cfg : Config α) (x : Input α) :
    List.Forall₂ (fun out inp => out.Perm inp) (rowsOf (call rng cfg x)) (rowsOf x) := by
  rw [rowsOf_call]
  exact callBatch_forall₂_perm rng cfg (rowsOf x)

/-- C4: for every input to `RandomSwap.call`, the output has as many
sequences as the input and every output sequence has the length of the
corresponding input sequence. -/
theorem call_length_invariant (rng : Rng) (cfg : Config α) (x : Input α) :
    List.Forall₂ (fun out inp => out.length = inp.length)
      (rowsOf (call rng cfg x)) (rowsOf x) := by
  rw [rowsOf_call]
  exact (callBatch_forall₂_perm rng cfg (rowsOf x)).imp
    (fun _ _ h => h.length_eq)

/-- C7: an unbatched (rank-one) input to `RandomSwap.call` is wrapped into a
batch of size one, processed by the batched core, and un-batched
symmetrically: the output is again a single sequence, namely the sole row of
the processed batch of one. -/
theorem call_single_unbatches (rng : Rng) (cfg : Config α) (xs : List α) :
    ∃ ys : List α, callBatch rng cfg [xs] = [ys] ∧
      call rng cfg (Input.single xs) = Input.single ys := by
  have hlen : (callBatch rng cfg [xs]).length = 1 := by
    rw [callBatch_length]; rfl
  cases hcb : callBatch rng cfg [xs] with
  | nil => rw [hcb] at hlen; simp at hlen
  | cons y ys =>
    rw [hcb] at hlen
    have hys : ys = [] := by simpa using hlen
    subst hys
    refine ⟨y, rfl, ?_⟩
    simp [call, convert_to_ragged_batch, hcb]

/-- C3: when an exclusion mechanism is active (`skipMask` yields a mask),
every position the mask marks as excluded holds the same token value in the
output sequence as in the input sequence. -/
theorem call_preserves_skipped (rng : Rng) (cfg : Config α) (x : Input α)
    (i k : Nat) (mask : List Bool) (hi : i < (rowsOf x).length)
    (hm : skipMask cfg ((rowsOf x).getD i []) = some mask)
    (hk : mask.getD k false = true) :
    ((rowsOf (call rng cfg x)).getD i []).getD k default =
      ((rowsOf x).getD i []).getD k default := by
  rw [rowsOf_call]
  unfold callBatch callBatchFull
  have hlen : i < (processRows rng cfg (rng.makeSeeds cfg.seed).1
      (rng.makeSeeds cfg.seed).2 0 (rowsOf x)).length := by
    rw [processRows_length]; exact hi
  have hmap : i < ((processRows rng cfg (rng.makeSeeds cfg.seed).1
      (rng.makeSeeds cfg.seed).2 0 (rowsOf x)).map (fun r => r.1)).length := by
    rw [List.length_map]; exact hlen
  rw [List.getD_eq_getElem _ _ hmap, List.getElem_map,
    ← List.getD_eq_getElem _ ([], 0) hlen]
  exact processRows_row_getD rng cfg _ (rowsOf x) _ 0 i k mask hi hm hk

/-- C1: for every batched input and every row `i`, the number of swap
iterations performed on that row equals the `stateless_binomial` draw over
the eligible count, capped by `max_swaps` when present and by the eligible
count itself; in particular it never exceeds any of the three quantities. -/
theorem swap_iteration_count (rng : Rng) (cfg : Config α) (xss : List (List α))
    (i : Nat) (hi : i < xss.length) :
    (swapIterCounts rng cfg xss).getD i 0 =
      min (match cfg.max_swaps with
           | none => rng.binomial (rng.makeSeeds cfg.seed).1 cfg.rate i
               (eligiblePositions cfg (xss.getD i [])).length
           | some m => min (rng.binomial (rng.makeSeeds cfg.seed).1 cfg.rate i
               (eligiblePositions cfg (xss.getD i [])).length) m.toNat)
          (eligiblePositions cfg (xss.getD i [])).length := by
  unfold swapIterCounts callBatchFull
  have hlen : i < (processRows rng cfg (rng.makeSeeds cfg.seed).1
      (rng.makeSeeds cfg.seed).2 0 xss).length := by
    rw [processRows_length]; exact hi
  have hmap : i < ((processRows rng cfg (rng.makeSeeds cfg.seed).1
      (rng.makeSeeds cfg.seed).2 0 xss).map (fun r => r.2)).length := by
    rw [List.length_map]; exact hlen
  rw [List.getD_eq_getElem _ _ hmap, List.getElem_map,
    ← List.getD_eq_getElem _ ([], 0) hlen,
    processRows_count rng cfg _ xss _ 0 i hi, Nat.zero_add,
    numToSelect_toNat]

/-- C5: `RandomSwap` is deterministic given a seed: when the arguments carry
a seed, constructing and applying the layer does not depend on the ambient
`random.randint` draw, so two runs on the same input produce identical
outputs. -/
theorem run_deterministic_given_seed (rng : Rng) (r1 r2 : Nat) (a : Args α)
    (s : Nat) (h : a.seed = some s) (x : Input α) :
    run rng r1 a x = run rng r2 a x := by
  unfold run init
  rw [h]
  simp only [Option.getD_some]

/-- Witness for C5 at a concrete seed, input and pair of ambient draws. -/
theorem run_deterministic_given_seed_witness :
    run rngW 1 ({ rate := 1/2, seed := some 42 } : Args Nat) (Input.single [1, 2, 3]) =
      run rngW 2 ({ rate := 1/2, seed := some 42 } : Args Nat) (Input.single [1, 2, 3]) :=
  run_deterministic_given_seed rngW 1 2 _ 42 rfl _

/-- C6: supplying more than one of `skip_list`, `skip_fn`, `skip_py_fn`
(that is, at least two are non-`None`) makes `RandomSwap.__init__` raise a
`ValueError`. -/
theorem init_multiple_skips_error (r : Nat) (a : Args α)
    (h : 2 ≤ (if a.skip_list.isSome then 1 else 0)
        + (if a.skip_fn.isSome then 1 else 0)
        + (if a.skip_py_fn.isSome then 1 else 0)) :
    ∃ e : InitError, init r a = Except.error e := by
  have hcount : noneCount a < 2 := by
    unfold noneCount
    obtain ⟨rt, ms, sl, sf, spf, sd, dt⟩ := a
    cases sl <;> cases sf <;> cases spf <;> simp_all
  unfold init
  by_cases h1 : ¬ (is_int_dtype a.dtype = true ∨ is_string_dtype a.dtype = true)
  · rw [if_pos h1]
    exact ⟨_, rfl⟩
  · rw [if_neg h1]
    by_cases hb : (match a.max_swaps with
        | some m => decide (m < 0) | none => false) = true
    · rw [if_pos hb]
      exact ⟨_, rfl⟩
    · rw [if_neg hb, if_pos hcount]
      exact ⟨_, rfl⟩

/-- Witness for C6: `skip_list` and `skip_fn` supplied together. -/
theorem init_multiple_skips_error_witness :
    ∃ e : InitError,
      init 0 ({ rate := 1/2,
                skip_list := some [1],
                skip_fn := some (fun _ => true) } : Args Nat) = Except.error e :=
  init_multiple_skips_error 0 _ (by decide)

/-- C8: a negative `max_swaps` makes `RandomSwap.__init__` raise a
`ValueError`, and when `max_swaps` is `None` or non-negative the
`max_swaps` error is never raised. -/
theorem init_max_swaps_validation (r : Nat) (a : Args α) :
    (∀ m : Int, a.max_swaps = some m → m < 0 →
        ∃ e : InitError, init r a = Except.error e) ∧
    ((a.max_swaps = none ∨ ∃ m : Int, a.max_swaps = some m ∧ 0 ≤ m) →
        init r a ≠ Except.error InitError.negativeMaxSwaps) := by
  constructor
  · intro m hm hneg
    have hb : (match a.max_swaps with
        | some m' => decide (m' < 0) | none => false) = true := by
      rw [hm]
      exact decide_eq_true hneg
    unfold init
    by_cases h1 : ¬ (is_int_dtype a.dtype = true ∨ is_string_dtype a.dtype = true)
    · rw [if_pos h1]
      exact ⟨_, rfl⟩
    · rw [if_neg h1, if_pos hb]
      exact ⟨_, rfl⟩
  · intro hok
    have hb : (match a.max_swaps with
        | some m' => decide (m' < 0) | none => false) = false := by
      rcases hok with hnone | ⟨m, hm, hge⟩
      · rw [hnone]
      · rw [hm]
        exact decide_eq_false (by omega)
    have hbne : ¬ ((match a.max_swaps with
        | some m' => decide (m' < 0) | none => false) = true) := by
      rw [hb]
      simp
    unfold init
    by_cases h1 : ¬ (is_int_dtype a.dtype = true ∨ is_string_dtype a.dtype = true)
    · rw [if_pos h1]
      simp
    · rw [if_neg h1, if_neg hbne]
      by_cases h3 : noneCount a < 2
      · rw [if_pos h3]
        simp
      · rw [if_neg h3]
        simp

/-- Witness for C8: `max_swaps = -1` errors; `max_swaps = 3` does not raise
the `max_swaps` error. -/
theorem init_max_swaps_validation_witness :
    (∃ e : InitError,
        init 0 ({ rate := 1/2, max_swaps := some (-1) } : Args Nat)
          = Except.error e) ∧
      init 0 ({ rate := 1/2, max_swaps := some 3 } : Args Nat)
        ≠ Except.error InitError.negativeMaxSwaps :=
  ⟨(init_max_swaps_validation 0 _).1 (-1) rfl (by decide),
   (init_max_swaps_validation 0 _).2 (Or.inr ⟨3, rfl, by decide⟩)⟩

/-- C9: a dtype that is neither an integer nor a string dtype makes
`RandomSwap.__init__` raise the dtype `ValueError` before any other
initialization (whatever the other arguments are), and a valid dtype never
raises it. -/
theorem init_dtype_validation (r : Nat) (a : Args α) :
    (¬ (is_int_dtype a.dtype = true ∨ is_string_dtype a.dtype = true) →
        init r a = Except.error InitError.invalidDtype) ∧
    ((is_int_dtype a.dtype = true ∨ is_string_dtype a.dtype = true) →
        init r a ≠ Except.error InitError.invalidDtype) := by
  constructor
  · intro h
    unfold init
    rw [if_pos h]
  · intro h
    unfold init
    rw [if_neg (not_not_intro h)]
    by_cases h2 : (match a.max_swaps with
        | some m => decide (m < 0) | none => false) = true
    · rw [if_pos h2]
      simp
    · rw [if_neg h2]
      by_cases h3 : noneCount a < 2
      · rw [if_pos h3]
        simp
      · rw [if_neg h3]
        simp

/-- Witness for C9: a float dtype errors; the default integer dtype does
not raise the dtype error. -/
theorem init_dtype_validation_witness :
    init 0 ({ rate := 1/2, dtype := DType.float32 } : Args Nat)
        = Except.error InitError.invalidDtype ∧
      init 0 ({ rate := 1/2 } : Args Nat) ≠ Except.error InitError.invalidDtype :=
  ⟨(init_dtype_validation 0 _).1 (by decide),
   (init_dtype_validation 0 _).2 (Or.inl rfl)⟩

/-- C10: constructing with none of the three skip arguments succeeds (the
mutual-exclusion check only fires when at least two are supplied, despite
its error message), and the resulting layer applies no skip mask: every
position of every sequence is eligible. -/
theorem init_no_skips_ok (r : Nat) (a : Args α)
    (h1 : a.skip_list = none) (h2 : a.skip_fn = none) (h3 : a.skip_py_fn = none)
    (hdt : is_int_dtype a.dtype = true ∨ is_string_dtype a.dtype = true)
    (hms : a.max_swaps = none ∨ ∃ m : Int, a.max_swaps = some m ∧ 0 ≤ m) :
    ∃ cfg : Config α, init r a = Except.ok cfg ∧
      ∀ row : List α, skipMask cfg row = none ∧
        eligiblePositions cfg row = List.range row.length := by
  have hb : (match a.max_swaps with
      | some m => decide (m < 0) | none => false) = false := by
    rcases hms with hnone | ⟨m, hm, hge⟩
    · rw [hnone]
    · rw [hm]
      exact decide_eq_false (by omega)
  have hbne : ¬ ((match a.max_swaps with
      | some m => decide (m < 0) | none => false) = true) := by
    rw [hb]
    simp
  have hcount : ¬ (noneCount a < 2) := by
    unfold noneCount
    rw [h1, h2, h3]
    simp
  unfold init
  rw [if_neg (not_not_intro hdt), if_neg hbne, if_neg hcount]
  refine ⟨_, rfl, fun row => ?_⟩
  have hsm : skipMask { rate := a.rate,
                        max_swaps := a.max_swaps,
                        skip_list := a.skip_list,
                        skip_fn := a.skip_fn,
                        skip_py_fn := a.skip_py_fn,
                        seed := a.seed.getD r } row = none := by
    simp [skipMask, h1, h2, h3]
  refine ⟨hsm, ?_⟩
  simp [eligiblePositions, hsm]

/-- Witness for C10: all three skip arguments omitted, default dtype. -/
theorem init_no_skips_ok_witness :
    ∃ cfg : Config Nat,
      init 9 ({ rate := 1/2, seed := some 3 } : Args Nat) = Except.ok cfg ∧
        ∀ row : List Nat, skipMask cfg row = none ∧
          eligiblePositions cfg row = List.range row.length :=
  init_no_skips_ok 9 _ rfl rfl rfl (Or.inl rfl) (Or.inl rfl)

/-- Witness for C1: one row of four tokens, `max_swaps = 2`, a binomial
model that draws the full count; the number of swaps performed is
`min (min 4 2) 4 = 2`. -/
theorem swap_iteration_count_witness :
    (swapIterCounts rngW { rate := 1/2,
                           max_swaps := some 2,
                           skip_list := none,
                           skip_fn := none,
                           skip_py_fn := none,
                           seed := 7 }
      [[1, 2, 3, 4]]).getD 0 0 = 2 :=
  (swap_iteration_count rngW { rate := 1/2,
                               max_swaps := some 2,
                               skip_list := none,
                               skip_fn := none,
                               skip_py_fn := none,
                               seed := 7 }
    [[1, 2, 3, 4]] 0 (by decide)).trans (by decide)

/-- Witness for C3: with a `skip_fn` excluding the token `5`, position `0`
of the row `[5, 2]` keeps its value. -/
theorem call_preserves_skipped_witness :
    ((rowsOf (call rngW { rate := 1/2,
                          max_swaps := none,
                          skip_list := none,
                          skip_fn := some (fun t => decide (t = 5)),
                          skip_py_fn := none,
                          seed := 7 }
        (Input.batch [[5, 2]]))).getD 0 []).getD 0 default =
      (((rowsOf (Input.batch [[5, 2]])).getD 0 []).getD 0 default : Nat) :=
  call_preserves_skipped rngW _ (Input.batch [[5, 2]]) 0 0 [true, false]
    (by decide) (by decide) (by decide)

end RandomSwap

end KerasHub
